import Mathlib
/- Shallow embedding of the raspi_pen QR scanner (qr_scanner.py, qr_scanner_system.py,
qr_scanner_minimal.py).  Timestamps are modelled as rationals, the decoder and the
camera as environments injected per call. -/

/-- Debounce state: the `last_qr_data` / `last_qr_time` fields of the scanner classes.
`__init__` sets `last_qr_data = None` and `last_qr_time = 0`. -/
structure DebounceState where
  last_qr_data : Option String
  last_qr_time : ℚ
deriving DecidableEq, Repr

/-- `self.debounce_time = 2` (seconds), identical in all three variants. -/
def debounce_time : ℚ := 2

/-- The debounce state of a freshly constructed scanner. -/
def initState : DebounceState := ⟨none, 0⟩

/-- `should_process_qr` from `qr_scanner.py` (textually identical logic in
`qr_scanner_system.py` and `qr_scanner_minimal.py`), with the call to `time.time()`
made an explicit argument: returns `false` when the payload equals the stored one and
the current time is within `debounce_time` of the stored time, otherwise stores payload
and time and returns `true`.  The second component is the state after the call. -/
def should_process_qr (s : DebounceState) (qr_data : String) (current_time : ℚ) :
    Bool × DebounceState :=
  if s.last_qr_data = some qr_data ∧ current_time - s.last_qr_time < debounce_time then
    (false, s)
  else
    (true, ⟨some qr_data, current_time⟩)

/-- Booleans returned by a sequence of `should_process_qr` calls, threading the state. -/
def callResults (s : DebounceState) : List (String × ℚ) → List Bool
  | [] => []
  | (p, t) :: rest =>
    (should_process_qr s p t).1 :: callResults (should_process_qr s p t).2 rest

/-- The (payload, time) reports emitted while processing the symbols decoded in one
tick (the `for qr_info in qr_codes` loop of `run`). -/
def processSymbols (s : DebounceState) (now : ℚ) :
    List String → List (String × ℚ) × DebounceState
  | [] => ([], s)
  | d :: ds =>
    let r := should_process_qr s d now
    let rest := processSymbols r.2 now ds
    (if r.1 then (d, now) :: rest.1 else rest.1, rest.2)

/-- Reports emitted over a sequence of ticks, each tick given as the decoded payload
list together with the tick's time. -/
def runTicks (s : DebounceState) : List (List String × ℚ) → List (String × ℚ) × DebounceState
  | [] => ([], s)
  | (syms, t) :: ts =>
    let r := processSymbols s t syms
    let rest := runTicks r.2 ts
    (r.1 ++ rest.1, rest.2)

/-- The stored `last_qr_time` value after each call of a sequence. -/
def timeTrace (s : DebounceState) : List (String × ℚ) → List ℚ
  | [] => []
  | (p, t) :: rest =>
    (should_process_qr s p t).2.last_qr_time :: timeTrace (should_process_qr s p t).2 rest

/-- Reasons one acquire can fail. -/
inductive FailReason
  | openFailed
  | readFailed
  | emptyFrame
deriving DecidableEq, Repr

/-- Outcome of one `self.cap.read()` in the system variant: a usable frame (`ret`
true, frame not `None`, nonzero size) or a failure. -/
inductive CaptureOutcome
  | frame
  | failure (r : FailReason)
deriving DecidableEq, Repr

/-- One tick of the system scanning loop: the capture outcome, the decoder's
behaviour on the captured image (value returned or exception raised), and the tick's
wall-clock time. -/
structure SysTick where
  cap : CaptureOutcome
  dec : Except String (List String)
  t : ℚ

/-- `max_failed_frames = 10` in `QRScanner.run` of `qr_scanner_system.py`. -/
def max_failed_frames : Nat := 10

/-- `decode_qr_codes` of `qr_scanner_system.py`: the whole body is wrapped in
`try/except`, returning `[]` when the decoder raises. -/
def decode_qr_codes (dec : Except String (List String)) : List String :=
  match dec with
  | .ok l => l
  | .error _ => []

/-- `decode_qr_codes_from_file` of `qr_scanner_minimal.py`: `None` from `imread`
yields `[]`, a raised exception yields `[]`, otherwise the decoded list. -/
def decode_qr_codes_from_file (img : Option (Except String (List String))) : List String :=
  match img with
  | none => []
  | some (.error _) => []
  | some (.ok l) => l

/-- Mutable state of `QRScanner.run` in `qr_scanner_system.py`: the failure counter,
frame counter, number of `start_camera` calls made from the loop, the debounce state
and the accumulated reports. -/
structure SysState where
  failed_frames : Nat
  frame_count : Nat
  restarts_attempted : Nat
  debounce : DebounceState
  reports : List (String × ℚ)
deriving DecidableEq, Repr

/-- State at loop entry. -/
def initSysState : SysState := ⟨0, 0, 0, initState, []⟩

/-- Result of one iteration of the `while` loop: the new state, whether the loop
executed `break`, and whether the `time.sleep(0.5)` failure backoff ran. -/
structure SysStepOut where
  state : SysState
  stopped : Bool
  backoff : Bool
deriving DecidableEq, Repr

/-- One iteration of the `while True` loop of `QRScanner.run`
(`qr_scanner_system.py`): on a failed read, increment `failed_frames`; once it
reaches `max_failed_frames`, re-run `start_camera` (outcome `restartOK`), resetting
the counter and continuing on success and breaking on failure; below the threshold
sleep 0.5 s and continue.  On a good frame, reset the counter, bump `frame_count`,
decode, and debounce-report each symbol. -/
def sysStep (restartOK : Bool) (k : SysTick) (s : SysState) : SysStepOut :=
  match k.cap with
  | .failure _ =>
    if max_failed_frames ≤ s.failed_frames + 1 then
      if restartOK then
        ⟨⟨0, s.frame_count, s.restarts_attempted + 1, s.debounce, s.reports⟩, false, false⟩
      else
        ⟨⟨s.failed_frames + 1, s.frame_count, s.restarts_attempted + 1, s.debounce, s.reports⟩,
          true, false⟩
    else
      ⟨⟨s.failed_frames + 1, s.frame_count, s.restarts_attempted, s.debounce, s.reports⟩,
        false, true⟩
  | .frame =>
    let pr := processSymbols s.debounce k.t (decode_qr_codes k.dec)
    ⟨⟨0, s.frame_count + 1, s.restarts_attempted, pr.2, s.reports ++ pr.1⟩, false, false⟩

/-- The system scanning loop over a finite tick script; `restarts n` is the outcome
of the (n+1)-st `start_camera` call made from inside the loop.  Returns the final
state and whether the loop stopped via `break` (rather than the script running out
while the loop was still running). -/
def sysRun (restarts : Nat → Bool) : List SysTick → SysState → SysState × Bool
  | [], s => (s, false)
  | k :: rest, s =>
    let o := sysStep (restarts s.restarts_attempted) k s
    if o.stopped then (o.state, true) else sysRun restarts rest o.state

/-- One tick's inputs for the basic `qr_scanner.py` loop: whether `cap.read`
returned a frame, the decoder's behaviour, and the tick's time. -/
structure SimpleTick where
  capOK : Bool
  dec : Except String (List String)
  t : ℚ

/-- How `QRScanner.run` of `qr_scanner.py` ends on a finite script. -/
inductive SimpleOutcome
  | ranToEnd (reports : List (String × ℚ))
  | stoppedCaptureFailure (reports : List (String × ℚ))
  | uncaught (e : String) (reports : List (String × ℚ))
deriving DecidableEq, Repr

/-- The `while True` loop of `QRScanner.run` in `qr_scanner.py`: it executes `break`
on the first failed read, and `decode_qr_codes` there has no exception handler, so a
raised decoder exception escapes the loop (only `KeyboardInterrupt` is caught). -/
def simpleRun (s : DebounceState) (acc : List (String × ℚ)) :
    List SimpleTick → SimpleOutcome
  | [] => .ranToEnd acc
  | k :: rest =>
    if k.capOK then
      match k.dec with
      | .error e => .uncaught e acc
      | .ok syms =>
        let pr := processSymbols s k.t syms
        simpleRun pr.2 (acc ++ pr.1) rest
    else .stoppedCaptureFailure acc

/-- The four capture utilities probed by `qr_scanner_minimal.py`. -/
inductive ToolName
  | libcameraStill
  | raspistill
  | fswebcam
  | ffmpeg
deriving DecidableEq, Repr

/-- Environment for one `capture_image` call: which utilities `which` finds
installed, and for each utility the subprocess outcome — `none` when
`subprocess.run` raises (e.g. timeout), otherwise the exit code together with
whether the output file exists afterwards. -/
structure ToolEnv where
  installed : ToolName → Bool
  invoke : ToolName → Option (Int × Bool)

/-- The common body of `capture_image_libcamera` / `_raspistill` / `_fswebcam` /
`_ffmpeg`: `result.returncode == 0 and os.path.exists(output_path)`, with any raised
exception caught and turned into `False`. -/
def toolInvokeOK (env : ToolEnv) (t : ToolName) : Bool :=
  match env.invoke t with
  | none => false
  | some (code, fileExists) => code == 0 && fileExists

/-- The fixed preference order of `capture_methods` in `capture_image`. -/
def capture_methods : List ToolName :=
  [.libcameraStill, .raspistill, .fswebcam, .ffmpeg]

/-- The `for tool_name, capture_func in capture_methods` loop: skip utilities that
are not installed, return the first installed one whose invocation succeeds. -/
def captureFirst (env : ToolEnv) : List ToolName → Option ToolName
  | [] => none
  | t :: rest =>
    if env.installed t = true then
      if toolInvokeOK env t = true then some t else captureFirst env rest
    else captureFirst env rest

/-- `capture_image` of `qr_scanner_minimal.py`, reported as the utility that won
(`none` when every candidate failed). -/
def capture_image (env : ToolEnv) : Option ToolName :=
  captureFirst env capture_methods

/-- The captures performed by successive loop iterations of the minimal scanner:
each tick calls `self.capture_image()` afresh; the scanner object stores no chosen
tool, so no state is threaded between calls. -/
def minimalCaptureSequence : List ToolEnv → List (Option ToolName)
  | [] => []
  | env :: rest => capture_image env :: minimalCaptureSequence rest

/-- Camera environment for `start_camera` of `qr_scanner_system.py`: for each
(device index, approach index) candidate, whether the constructed `VideoCapture` is
opened, and for each probe read either `none` (read failed or frame `None`) or the
frame's pixel count (`frame.size`).  Approach 0 is `_try_v4l2_direct`, approach 1
`_try_basic_opencv`, approach 2 `_try_legacy_mode`. -/
structure CamEnv where
  openOK : Nat → Nat → Bool
  readRes : Nat → Nat → Nat → Option Nat

/-- Observable events of selection: constructing a `VideoCapture` for a candidate,
reading a probe frame from it, releasing the held capture. -/
inductive CamEvent
  | openCam (d a : Nat)
  | readCam (d a i : Nat)
  | releaseCam (d a : Nat)
deriving DecidableEq, Repr

/-- Result of a selection attempt: success flag, the `self.cap` handle held
afterwards (identified by the (device, approach) that constructed it), and the
event trace. -/
structure TryResult where
  ok : Bool
  cap : Option (Nat × Nat)
  evs : List CamEvent
deriving DecidableEq, Repr

/-- `if self.cap: self.cap.release(); self.cap = None` at the top of each `_try_*`
method. -/
def releasePrev : Option (Nat × Nat) → List CamEvent
  | none => []
  | some (d, a) => [.releaseCam d a]

/-- The `for attempt in range(3)` probe loop of `_try_v4l2_direct` starting at
attempt `i` with `fuel` attempts left: succeed on the first read whose frame is
present with `frame.size > 0`. -/
def v4l2Probe (env : CamEnv) (d : Nat) : Nat → Nat → Bool × List CamEvent
  | _, 0 => (false, [])
  | i, fuel + 1 =>
    match env.readRes d 0 i with
    | some sz =>
      if 0 < sz then (true, [.readCam d 0 i])
      else
        ((v4l2Probe env d (i + 1) fuel).1, .readCam d 0 i :: (v4l2Probe env d (i + 1) fuel).2)
    | none =>
      ((v4l2Probe env d (i + 1) fuel).1, .readCam d 0 i :: (v4l2Probe env d (i + 1) fuel).2)

/-- `_try_v4l2_direct` (approach 0): release any held capture, construct the V4L2
capture; when it is opened, probe up to 3 reads. -/
def tryV4l2 (env : CamEnv) (d : Nat) (cap : Option (Nat × Nat)) : TryResult :=
  let evs := releasePrev cap ++ [CamEvent.openCam d 0]
  if env.openOK d 0 = true then
    ⟨(v4l2Probe env d 0 3).1, some (d, 0), evs ++ (v4l2Probe env d 0 3).2⟩
  else
    ⟨false, some (d, 0), evs⟩

/-- `_try_basic_opencv` (approach 1): a single test read, accepted when `ret` is
true and the frame is not `None` (no size check). -/
def tryBasic (env : CamEnv) (d : Nat) (cap : Option (Nat × Nat)) : TryResult :=
  let evs := releasePrev cap ++ [CamEvent.openCam d 1]
  if env.openOK d 1 = true then
    ⟨(env.readRes d 1 0).isSome, some (d, 1), evs ++ [CamEvent.readCam d 1 0]⟩
  else
    ⟨false, some (d, 1), evs⟩

/-- `_try_legacy_mode` (approach 2): a single test read, accepted when `ret` is
true and the frame is not `None`. -/
def tryLegacy (env : CamEnv) (d : Nat) (cap : Option (Nat × Nat)) : TryResult :=
  let evs := releasePrev cap ++ [CamEvent.openCam d 2]
  if env.openOK d 2 = true then
    ⟨(env.readRes d 2 0).isSome, some (d, 2), evs ++ [CamEvent.readCam d 2 0]⟩
  else
    ⟨false, some (d, 2), evs⟩

/-- The `for i, approach in enumerate(approaches)` loop of `start_camera` for one
device: the three approaches in order, stopping at the first success. -/
def tryApproachSeq (env : CamEnv) (d : Nat) (cap : Option (Nat × Nat)) : TryResult :=
  let r1 := tryV4l2 env d cap
  if r1.ok then r1
  else
    let r2 := tryBasic env d r1.cap
    if r2.ok then ⟨true, r2.cap, r1.evs ++ r2.evs⟩
    else
      let r3 := tryLegacy env d r2.cap
      ⟨r3.ok, r3.cap, r1.evs ++ r2.evs ++ r3.evs⟩

/-- The `for device_idx in devices_to_try` loop of `start_camera`. -/
def tryDevices (env : CamEnv) : List Nat → Option (Nat × Nat) → TryResult
  | [], cap => ⟨false, cap, []⟩
  | d :: rest, cap =>
    let r := tryApproachSeq env d cap
    if r.ok then r
    else
      let r2 := tryDevices env rest r.cap
      ⟨r2.ok, r2.cap, r.evs ++ r2.evs⟩

/-- `start_camera` of `qr_scanner_system.py` over the available device list,
starting with no capture held. -/
def start_camera (env : CamEnv) (devices : List Nat) : TryResult :=
  tryDevices env devices none

/-- The (device, approach) pairs for which a `VideoCapture` was constructed, in
order. -/
def opensOf : List CamEvent → List (Nat × Nat)
  | [] => []
  | CamEvent.openCam d a :: rest => (d, a) :: opensOf rest
  | _ :: rest => opensOf rest

/-- The (device, approach) pairs whose capture was released, in order. -/
def releasesOf : List CamEvent → List (Nat × Nat)
  | [] => []
  | CamEvent.releaseCam d a :: rest => (d, a) :: releasesOf rest
  | _ :: rest => releasesOf rest

/-- The probe reads performed, in order. -/
def readsOf : List CamEvent → List (Nat × Nat × Nat)
  | [] => []
  | CamEvent.readCam d a i :: rest => (d, a, i) :: readsOf rest
  | _ :: rest => readsOf rest

/-- The held capture as a (zero- or one-element) list. -/
def capToList : Option (Nat × Nat) → List (Nat × Nat)
  | none => []
  | some c => [c]

/-- Environment of the spec's selection scenario on device 0: candidate A = approach
0 fails to open, B = approach 1 opens but every read fails, C = approach 2 opens and
reads a frame. -/
def envABC : CamEnv :=
  ⟨fun _ a => a == 1 || a == 2, fun _ a _ => if a = 2 then some 1 else none⟩

/-- Environment in which every candidate opens and every read fails. -/
def envAllFail : CamEnv := ⟨fun _ _ => true, fun _ _ _ => none⟩

/-- Environment where only the basic-OpenCV approach opens; its first read fails and
its second read would yield a frame. -/
def envRetryWouldWork : CamEnv :=
  ⟨fun _ a => a == 1, fun _ _ i => if i = 0 then none else some 1⟩

lemma should_process_qr_fst_false_iff (s : DebounceState) (p : String) (t : ℚ) :
    (should_process_qr s p t).1 = false ↔
      s.last_qr_data = some p ∧ t - s.last_qr_time < debounce_time := by
  unfold should_process_qr
  split_ifs with h <;> simp [h]

lemma should_process_qr_of_not (s : DebounceState) (p : String) (t : ℚ)
    (h : ¬(s.last_qr_data = some p ∧ t - s.last_qr_time < debounce_time)) :
    should_process_qr s p t = (true, ⟨some p, t⟩) := by
  unfold should_process_qr
  rw [if_neg h]

lemma should_process_qr_time_le (s : DebounceState) (p : String) (t : ℚ)
    (h : s.last_qr_time ≤ t) :
    s.last_qr_time ≤ (should_process_qr s p t).2.last_qr_time ∧
      (should_process_qr s p t).2.last_qr_time ≤ t := by
  unfold should_process_qr
  split_ifs <;> simp [h]

lemma chain'_cons_of_le {x y : ℚ} {l : List ℚ} (h : x ≤ y)
    (hc : List.Chain' (· ≤ ·) (y :: l)) : List.Chain' (· ≤ ·) (x :: l) := by
  cases l with
  | nil => simp
  | cons z zs =>
    rw [List.chain'_cons] at hc ⊢
    exact ⟨le_trans h hc.1, hc.2⟩

/-- C1: `should_process_qr` returns `false` iff the payload equals the stored
`last_qr_data` and `now - last_qr_time < debounce_time`; in every other case it stores
the payload and the time and returns `true`.  From a fresh state, two calls with the
same payload at times `t1 < t2` return `(true, false)` when `t2 - t1 < debounce_time`
and `(true, true)` when `t2 - t1 ≥ debounce_time`. -/
theorem C1_debounce_contract :
    (∀ (s : DebounceState) (p : String) (now : ℚ),
      (should_process_qr s p now).1 = false ↔
        s.last_qr_data = some p ∧ now - s.last_qr_time < debounce_time) ∧
    (∀ (s : DebounceState) (p : String) (now : ℚ),
      ¬(s.last_qr_data = some p ∧ now - s.last_qr_time < debounce_time) →
        should_process_qr s p now = (true, ⟨some p, now⟩)) ∧
    (∀ (p : String) (t1 t2 : ℚ), t1 < t2 → t2 - t1 < debounce_time →
      callResults initState [(p, t1), (p, t2)] = [true, false]) ∧
    (∀ (p : String) (t1 t2 : ℚ), t1 < t2 → debounce_time ≤ t2 - t1 →
      callResults initState [(p, t1), (p, t2)] = [true, true]) := by
  refine ⟨should_process_qr_fst_false_iff, should_process_qr_of_not, ?_, ?_⟩
  · intro p t1 t2 _ hlt
    have h1 : should_process_qr initState p t1 = (true, ⟨some p, t1⟩) :=
      should_process_qr_of_not _ _ _ (by simp [initState])
    have h2 : should_process_qr ⟨some p, t1⟩ p t2 = (false, ⟨some p, t1⟩) := by
      unfold should_process_qr
      rw [if_pos ⟨rfl, hlt⟩]
    simp [callResults, h1, h2]
  · intro p t1 t2 _ hge
    have h1 : should_process_qr initState p t1 = (true, ⟨some p, t1⟩) :=
      should_process_qr_of_not _ _ _ (by simp [initState])
    have h2 : should_process_qr ⟨some p, t1⟩ p t2 = (true, ⟨some p, t2⟩) :=
      should_process_qr_of_not _ _ _ (fun hc => absurd hc.2 (not_lt.mpr hge))
    simp [callResults, h1, h2]

/-- Witness for C1 at payload "a", times 0 and 1 (within the window). -/
theorem C1_debounce_contract_witness :
    callResults initState [("a", 0), ("a", 1)] = [true, false] :=
  C1_debounce_contract.2.2.1 "a" 0 1 (by norm_num) (by norm_num [debounce_time])

/-- C4: suppression compares only against the single stored payload, so a payload
differing from the stored one is never suppressed; from a fresh state two distinct
payloads at the same instant both return `true` in either call order; and an
alternating sequence A, B, A, B, A, B returns `true` on every call, at any times. -/
theorem C4_no_cross_suppression :
    (∀ (s : DebounceState) (p : String) (t : ℚ),
      s.last_qr_data ≠ some p → (should_process_qr s p t).1 = true) ∧
    (∀ (p1 p2 : String) (t : ℚ), p1 ≠ p2 →
      callResults initState [(p1, t), (p2, t)] = [true, true]) ∧
    (∀ (a b : String) (t1 t2 t3 t4 t5 t6 : ℚ), a ≠ b →
      callResults initState [(a, t1), (b, t2), (a, t3), (b, t4), (a, t5), (b, t6)]
        = [true, true, true, true, true, true]) := by
  have hne : ∀ (s : DebounceState) (p : String) (t : ℚ), s.last_qr_data ≠ some p →
      should_process_qr s p t = (true, ⟨some p, t⟩) := by
    intro s p t h
    exact should_process_qr_of_not _ _ _ (by tauto)
  refine ⟨?_, ?_, ?_⟩
  · intro s p t h
    rw [hne s p t h]
  · intro p1 p2 t h
    have h1 := hne initState p1 t (by simp [initState])
    have h2 := hne ⟨some p1, t⟩ p2 t (by simp [h])
    simp [callResults, h1, h2]
  · intro a b t1 t2 t3 t4 t5 t6 hab
    have hba : b ≠ a := hab.symm
    have h1 := hne initState a t1 (by simp [initState])
    have h2 := hne ⟨some a, t1⟩ b t2 (by simp [hab])
    have h3 := hne ⟨some b, t2⟩ a t3 (by simp [hba])
    have h4 := hne ⟨some a, t3⟩ b t4 (by simp [hab])
    have h5 := hne ⟨some b, t4⟩ a t5 (by simp [hba])
    have h6 := hne ⟨some a, t5⟩ b t6 (by simp [hab])
    simp [callResults, h1, h2, h3, h4, h5, h6]

/-- Witness for C4: the alternating sequence at concrete times within the window. -/
theorem C4_no_cross_suppression_witness :
    callResults initState [("a", 0), ("b", 0), ("a", 1), ("b", 1), ("a", 1), ("b", 2)]
      = [true, true, true, true, true, true] :=
  C4_no_cross_suppression.2.2 "a" "b" 0 0 1 1 1 2 (by decide)

/-- C5: feeding decode results [X], [X], [], [Y] at times 0, 1, 3, 3 through the
per-tick pipeline from a fresh state emits exactly the two reports X at 0 and Y at 3. -/
theorem C5_end_to_end_pipeline :
    (runTicks initState [(["X"], 0), (["X"], 1), ([], 3), (["Y"], 3)]).1
      = [("X", 0), ("Y", 3)] := by
  have e1 : should_process_qr initState "X" 0 = (true, ⟨some "X", 0⟩) :=
    should_process_qr_of_not _ _ _ (by simp [initState])
  have e2 : should_process_qr ⟨some "X", 0⟩ "X" 1 = (false, ⟨some "X", 0⟩) := by
    unfold should_process_qr
    rw [if_pos ⟨rfl, by show (1 : ℚ) - 0 < debounce_time; norm_num [debounce_time]⟩]
  have e3 : should_process_qr ⟨some "X", 0⟩ "Y" 3 = (true, ⟨some "Y", 3⟩) :=
    should_process_qr_of_not _ _ _ (by simp)
  simp [runTicks, processSymbols, e1, e2, e3]

/-- C9: if the timestamps seen by successive `should_process_qr` calls are
non-decreasing and at least the stored `last_qr_time`, then the stored `last_qr_time`
never decreases over the whole call sequence: each call leaves it unchanged or
overwrites it with the current (later or equal) time. -/
theorem C9_lastSeen_monotone :
    ∀ (calls : List (String × ℚ)) (s : DebounceState),
      List.Chain' (· ≤ ·) (s.last_qr_time :: calls.map Prod.snd) →
      List.Chain' (· ≤ ·) (s.last_qr_time :: timeTrace s calls) := by
  intro calls
  induction calls with
  | nil => intro s _; simp [timeTrace]
  | cons pt rest ih =>
    intro s hc
    obtain ⟨p, t⟩ := pt
    simp only [List.map_cons] at hc
    rw [List.chain'_cons] at hc
    have hle := should_process_qr_time_le s p t hc.1
    rw [timeTrace, List.chain'_cons]
    exact ⟨hle.1, ih _ (chain'_cons_of_le hle.2 hc.2)⟩

/-- Witness for C9: payload "a" at times 1 then 2 from the fresh state. -/
theorem C9_lastSeen_monotone_witness :
    List.Chain' (· ≤ ·) (initState.last_qr_time :: timeTrace initState [("a", 1), ("a", 2)]) :=
  C9_lastSeen_monotone [("a", 1), ("a", 2)] initState
    (by norm_num [initState, List.chain'_cons])

/-- C10: a suppressed call leaves the debounce state unchanged, so the window is
measured from the last reported sighting: any payload presented at times 0, 1 and 2
from a fresh state yields `(true, false, true)`. -/
theorem C10_suppressed_leaves_state_unchanged :
    (∀ (s : DebounceState) (p : String) (t : ℚ),
      (should_process_qr s p t).1 = false → (should_process_qr s p t).2 = s) ∧
    (∀ p : String, callResults initState [(p, 0), (p, 1), (p, 2)] = [true, false, true]) := by
  constructor
  · intro s p t h
    have hcond := (should_process_qr_fst_false_iff s p t).mp h
    show (should_process_qr s p t).2 = s
    unfold should_process_qr
    rw [if_pos hcond]
  · intro p
    have h1 : should_process_qr initState p 0 = (true, ⟨some p, 0⟩) :=
      should_process_qr_of_not _ _ _ (by simp [initState])
    have h2 : (should_process_qr ⟨some p, 0⟩ p 1) = (false, ⟨some p, 0⟩) := by
      unfold should_process_qr
      rw [if_pos (by norm_num [debounce_time])]
    have h3 : (should_process_qr ⟨some p, 0⟩ p 2).1 = true := by
      rw [should_process_qr_of_not _ _ _ (by norm_num [debounce_time])]
    simp [callResults, h1, h2, h3]

/-- Witness for C10: a concrete suppressed call keeps the state. -/
theorem C10_suppressed_leaves_state_unchanged_witness :
    (should_process_qr ⟨some "a", 0⟩ "a" 1).2 = ⟨some "a", 0⟩ :=
  C10_suppressed_leaves_state_unchanged.1 ⟨some "a", 0⟩ "a" 1
    (by unfold should_process_qr
        rw [if_pos ⟨rfl, by show (1 : ℚ) - 0 < debounce_time; norm_num [debounce_time]⟩])

lemma sysStep_true_not_stopped (k : SysTick) (s : SysState) :
    (sysStep true k s).stopped = false := by
  unfold sysStep
  rcases hc : k.cap with _ | r <;> simp [hc]
  split_ifs <;> rfl

lemma sysRun_append (restarts : Nat → Bool) (l1 l2 : List SysTick) :
    ∀ s : SysState,
      sysRun restarts (l1 ++ l2) s =
        if (sysRun restarts l1 s).2 then sysRun restarts l1 s
        else sysRun restarts l2 (sysRun restarts l1 s).1 := by
  induction l1 with
  | nil => intro s; simp [sysRun]
  | cons k rest ih =>
    intro s
    rw [List.cons_append, sysRun, sysRun]
    rcases hstop : (sysStep (restarts s.restarts_attempted) k s).stopped with _ | _
    · simp only [hstop, Bool.false_eq_true, if_false]
      exact ih _
    · simp [hstop]

lemma sysRun_fails_below (restarts : Nat → Bool) (reason : FailReason) (dec : Except String (List String)) (t : ℚ) :
    ∀ (j : Nat) (s : SysState), s.failed_frames + j < max_failed_frames →
      sysRun restarts (List.replicate j ⟨.failure reason, dec, t⟩) s =
        (⟨s.failed_frames + j, s.frame_count, s.restarts_attempted, s.debounce, s.reports⟩,
          false) := by
  intro j
  induction j with
  | zero => intro s _; simp [sysRun]
  | succ n ih =>
    intro s hs
    rw [List.replicate_succ, sysRun]
    have hstep : sysStep (restarts s.restarts_attempted) ⟨.failure reason, dec, t⟩ s =
        ⟨⟨s.failed_frames + 1, s.frame_count, s.restarts_attempted, s.debounce, s.reports⟩,
          false, true⟩ := by
      unfold sysStep
      simp only []
      rw [if_neg (by omega)]
    rw [hstep]
    simp only [Bool.false_eq_true, if_false]
    rw [ih _ (by simp; omega)]
    simp
    omega

lemma sysRun_goods_zero (restarts : Nat → Bool) (t : ℚ) :
    ∀ (m : Nat) (s : SysState), s.failed_frames = 0 →
      sysRun restarts (List.replicate m ⟨.frame, .ok [], t⟩) s =
        (⟨0, s.frame_count + m, s.restarts_attempted, s.debounce, s.reports⟩, false) := by
  intro m
  induction m with
  | zero =>
    intro s h
    rcases s with ⟨f, fc, ra, d, rep⟩
    simp at h
    simp [sysRun, h]
  | succ n ih =>
    intro s h
    rw [List.replicate_succ, sysRun]
    have hstep : sysStep (restarts s.restarts_attempted) ⟨.frame, .ok [], t⟩ s =
        ⟨⟨0, s.frame_count + 1, s.restarts_attempted, s.debounce, s.reports⟩, false, false⟩ := by
      unfold sysStep
      simp [decode_qr_codes, processSymbols]
    rw [hstep]
    simp only [Bool.false_eq_true, if_false]
    rw [ih _ rfl]
    simp
    omega

lemma sysRun_goods (restarts : Nat → Bool) (t : ℚ) :
    ∀ (m : Nat) (s : SysState),
      sysRun restarts (List.replicate m ⟨.frame, .ok [], t⟩) s =
        (⟨if m = 0 then s.failed_frames else 0, s.frame_count + m, s.restarts_attempted,
          s.debounce, s.reports⟩, false) := by
  intro m
  induction m with
  | zero =>
    intro s
    rcases s with ⟨f, fc, ra, d, rep⟩
    simp [sysRun]
  | succ n ih =>
    intro s
    rw [List.replicate_succ]
    simp only [sysRun]
    have hstep : sysStep (restarts s.restarts_attempted) ⟨.frame, .ok [], t⟩ s =
        ⟨⟨0, s.frame_count + 1, s.restarts_attempted, s.debounce, s.reports⟩, false, false⟩ := by
      unfold sysStep
      simp [decode_qr_codes, processSymbols]
    rw [hstep]
    simp only [Bool.false_eq_true, if_false]
    rw [ih _]
    simp
    omega

/-- C2 (amended): in the `qr_scanner_system.py` loop, a transient capture failure
below the threshold increments the failure counter, runs the 0.5 s backoff, and
continues; and as long as every `start_camera` re-selection succeeds, the loop never
executes `break` — it can only stop when a re-selection fails.  (In `qr_scanner.py`
the behaviour is different, see the counterexample.) -/
theorem C2_system_transient_failures_recovered :
    (∀ (r : Bool) (k : SysTick) (s : SysState) (reason : FailReason),
      k.cap = .failure reason → s.failed_frames + 1 < max_failed_frames →
      sysStep r k s =
        ⟨⟨s.failed_frames + 1, s.frame_count, s.restarts_attempted, s.debounce, s.reports⟩,
          false, true⟩) ∧
    (∀ (restarts : Nat → Bool) (script : List SysTick) (s : SysState),
      (∀ n, restarts n = true) → (sysRun restarts script s).2 = false) := by
  constructor
  · intro r k s reason hk hlt
    simp only [sysStep, hk]
    rw [if_neg (Nat.not_le.mpr hlt)]
  · intro restarts script
    induction script with
    | nil => intro s _; rfl
    | cons k rest ih =>
      intro s hr
      simp only [sysRun, hr s.restarts_attempted, sysStep_true_not_stopped,
        Bool.false_eq_true, if_false]
      exact ih _ hr

/-- Witness for C2: a single transient failure with an always-succeeding
re-selection does not stop the loop. -/
theorem C2_system_transient_failures_recovered_witness :
    (sysRun (fun _ => true) [⟨.failure .readFailed, .ok [], 0⟩] initSysState).2 = false :=
  C2_system_transient_failures_recovered.2 (fun _ => true)
    [⟨.failure .readFailed, .ok [], 0⟩] initSysState (fun _ => rfl)

/-- C2 fails on `qr_scanner.py` as the claim is stated: that loop executes `break`
on the very first failed read — no failure counter, no backoff — leaving the rest of
the script unprocessed, so a transient capture error does terminate the scanning
loop even though no backend re-selection was ever attempted, let alone exhausted. -/
theorem C2_counterexample_simple_loop_stops :
    simpleRun initState [] [⟨false, .ok [], 0⟩, ⟨true, .ok [], 1⟩]
      = .stoppedCaptureFailure [] := rfl

/-- C3: re-selection is attempted on a failed read exactly when the consecutive
failure streak reaches `max_failed_frames = 10`; a source failing exactly 9 times and
then succeeding never triggers re-selection nor stops the loop (the counter resets on
the first good frame); after 10 consecutive failures the loop re-runs `start_camera`
once and, if that succeeds, keeps running and delivering frames with counter 0, while
if it fails the loop stops. -/
theorem C3_reselect_exactly_at_threshold :
    (∀ (r : Bool) (k : SysTick) (s : SysState) (reason : FailReason),
      k.cap = .failure reason →
      ((sysStep r k s).state.restarts_attempted = s.restarts_attempted + 1 ↔
        max_failed_frames ≤ s.failed_frames + 1)) ∧
    (∀ (restarts : Nat → Bool) (m : Nat),
      (sysRun restarts (List.replicate 9 ⟨.failure .readFailed, .ok [], 0⟩ ++
          List.replicate m ⟨.frame, .ok [], 0⟩) initSysState).2 = false ∧
      (sysRun restarts (List.replicate 9 ⟨.failure .readFailed, .ok [], 0⟩ ++
          List.replicate m ⟨.frame, .ok [], 0⟩) initSysState).1.restarts_attempted = 0 ∧
      (sysRun restarts (List.replicate 9 ⟨.failure .readFailed, .ok [], 0⟩ ++
          List.replicate m ⟨.frame, .ok [], 0⟩) initSysState).1.frame_count = m) ∧
    (∀ m : Nat,
      (sysRun (fun _ => true) (List.replicate 10 ⟨.failure .readFailed, .ok [], 0⟩ ++
          List.replicate m ⟨.frame, .ok [], 0⟩) initSysState).2 = false ∧
      (sysRun (fun _ => true) (List.replicate 10 ⟨.failure .readFailed, .ok [], 0⟩ ++
          List.replicate m ⟨.frame, .ok [], 0⟩) initSysState).1.restarts_attempted = 1 ∧
      (sysRun (fun _ => true) (List.replicate 10 ⟨.failure .readFailed, .ok [], 0⟩ ++
          List.replicate m ⟨.frame, .ok [], 0⟩) initSysState).1.frame_count = m ∧
      (sysRun (fun _ => true) (List.replicate 10 ⟨.failure .readFailed, .ok [], 0⟩ ++
          List.replicate m ⟨.frame, .ok [], 0⟩) initSysState).1.failed_frames = 0) ∧
    (sysRun (fun _ => false) (List.replicate 10 ⟨.failure .readFailed, .ok [], 0⟩)
        initSysState = (⟨10, 0, 1, initState, []⟩, true)) := by
  have h9 : ∀ restarts : Nat → Bool,
      sysRun restarts (List.replicate 9 ⟨.failure .readFailed, .ok [], 0⟩) initSysState
        = (⟨9, 0, 0, initState, []⟩, false) := by
    intro restarts
    have h := sysRun_fails_below restarts .readFailed (.ok []) 0 9 initSysState
      (by norm_num [initSysState, max_failed_frames])
    simpa [initSysState] using h
  have h10t : sysRun (fun _ => true)
      (List.replicate 10 ⟨.failure .readFailed, .ok [], 0⟩) initSysState
        = (⟨0, 0, 1, initState, []⟩, false) := by
    have e : List.replicate 10 (⟨.failure .readFailed, .ok [], 0⟩ : SysTick)
        = List.replicate 9 ⟨.failure .readFailed, .ok [], 0⟩ ++
            [⟨.failure .readFailed, .ok [], 0⟩] := rfl
    rw [e, sysRun_append, h9 (fun _ => true)]
    norm_num [sysRun, sysStep, max_failed_frames]
  refine ⟨?_, ?_, ?_, ?_⟩
  · intro r k s reason hk
    simp only [sysStep, hk]
    split_ifs with hth hok
    · exact iff_of_true rfl hth
    · exact iff_of_true rfl hth
    · exact iff_of_false (by show ¬s.restarts_attempted = s.restarts_attempted + 1; omega) hth
  · intro restarts m
    rw [sysRun_append, h9 restarts]
    simp only [Bool.false_eq_true, if_false]
    rw [sysRun_goods restarts 0 m]
    exact ⟨rfl, rfl, Nat.zero_add m⟩
  · intro m
    rw [sysRun_append, h10t]
    simp only [Bool.false_eq_true, if_false]
    rw [sysRun_goods (fun _ => true) 0 m]
    exact ⟨rfl, rfl, Nat.zero_add m, ite_self 0⟩
  · have e : List.replicate 10 (⟨.failure .readFailed, .ok [], 0⟩ : SysTick)
        = List.replicate 9 ⟨.failure .readFailed, .ok [], 0⟩ ++
            [⟨.failure .readFailed, .ok [], 0⟩] := rfl
    rw [e, sysRun_append, h9 (fun _ => false)]
    norm_num [sysRun, sysStep, max_failed_frames]

/-- Witness for C3: the trigger iff at a concrete failed tick and fresh state. -/
theorem C3_reselect_exactly_at_threshold_witness :
    (sysStep true ⟨.failure .readFailed, .ok [], 0⟩ initSysState).state.restarts_attempted
        = initSysState.restarts_attempted + 1 ↔
      max_failed_frames ≤ initSysState.failed_frames + 1 :=
  C3_reselect_exactly_at_threshold.1 true ⟨.failure .readFailed, .ok [], 0⟩ initSysState
    .readFailed rfl

lemma sysRun_cap_determines (restarts : Nat → Bool) :
    ∀ (ticks ticks' : List SysTick) (s s' : SysState),
      ticks.map SysTick.cap = ticks'.map SysTick.cap →
      s.failed_frames = s'.failed_frames →
      s.restarts_attempted = s'.restarts_attempted →
      s.frame_count = s'.frame_count →
      (sysRun restarts ticks s).2 = (sysRun restarts ticks' s').2 ∧
      (sysRun restarts ticks s).1.frame_count = (sysRun restarts ticks' s').1.frame_count ∧
      (sysRun restarts ticks s).1.failed_frames = (sysRun restarts ticks' s').1.failed_frames ∧
      (sysRun restarts ticks s).1.restarts_attempted
        = (sysRun restarts ticks' s').1.restarts_attempted := by
  intro ticks
  induction ticks with
  | nil =>
    intro ticks' s s' hmap hf hr hc
    cases ticks' with
    | nil => exact ⟨rfl, hc, hf, hr⟩
    | cons k' rest' => simp at hmap
  | cons k rest ih =>
    intro ticks' s s' hmap hf hr hc
    cases ticks' with
    | nil => simp at hmap
    | cons k' rest' =>
      simp only [List.map_cons, List.cons.injEq] at hmap
      obtain ⟨hcap, hrest⟩ := hmap
      simp only [sysRun]
      rcases hck : k.cap with _ | reason
      · have hck' : k'.cap = .frame := by rw [← hcap, hck]
        have e1 : sysStep (restarts s.restarts_attempted) k s =
            ⟨⟨0, s.frame_count + 1, s.restarts_attempted,
              (processSymbols s.debounce k.t (decode_qr_codes k.dec)).2,
              s.reports ++ (processSymbols s.debounce k.t (decode_qr_codes k.dec)).1⟩,
              false, false⟩ := by
          simp only [sysStep, hck]
        have e2 : sysStep (restarts s'.restarts_attempted) k' s' =
            ⟨⟨0, s'.frame_count + 1, s'.restarts_attempted,
              (processSymbols s'.debounce k'.t (decode_qr_codes k'.dec)).2,
              s'.reports ++ (processSymbols s'.debounce k'.t (decode_qr_codes k'.dec)).1⟩,
              false, false⟩ := by
          simp only [sysStep, hck']
        rw [e1, e2]
        simp only [Bool.false_eq_true, if_false]
        exact ih rest' _ _ hrest rfl hr (by simp [hc])
      · have hck' : k'.cap = .failure reason := by rw [← hcap, hck]
        by_cases hth : max_failed_frames ≤ s.failed_frames + 1
        · have hthb : max_failed_frames ≤ s'.failed_frames + 1 := hf ▸ hth
          rcases hok : restarts s.restarts_attempted with _ | _
          · have hokb : restarts s'.restarts_attempted = false := by rw [← hr, hok]
            have e1 : sysStep false k s =
                ⟨⟨s.failed_frames + 1, s.frame_count, s.restarts_attempted + 1,
                  s.debounce, s.reports⟩, true, false⟩ := by
              simp only [sysStep, hck]
              rw [if_pos hth]
              simp
            have e2 : sysStep (restarts s'.restarts_attempted) k' s' =
                ⟨⟨s'.failed_frames + 1, s'.frame_count, s'.restarts_attempted + 1,
                  s'.debounce, s'.reports⟩, true, false⟩ := by
              simp only [sysStep, hck', hokb]
              rw [if_pos hthb]
              simp
            rw [e1, e2]
            simp [hc, hf, hr]
          · have hokb : restarts s'.restarts_attempted = true := by rw [← hr, hok]
            have e1 : sysStep true k s =
                ⟨⟨0, s.frame_count, s.restarts_attempted + 1, s.debounce, s.reports⟩,
                  false, false⟩ := by
              simp only [sysStep, hck]
              rw [if_pos hth]
              simp
            have e2 : sysStep (restarts s'.restarts_attempted) k' s' =
                ⟨⟨0, s'.frame_count, s'.restarts_attempted + 1, s'.debounce, s'.reports⟩,
                  false, false⟩ := by
              simp only [sysStep, hck', hokb]
              rw [if_pos hthb]
              simp
            rw [e1, e2]
            simp only [Bool.false_eq_true, if_false]
            exact ih rest' _ _ hrest rfl (by simp [hr]) (by simp [hc])
        · have hthb : ¬max_failed_frames ≤ s'.failed_frames + 1 := hf ▸ hth
          have e1 : sysStep (restarts s.restarts_attempted) k s =
              ⟨⟨s.failed_frames + 1, s.frame_count, s.restarts_attempted, s.debounce,
                s.reports⟩, false, true⟩ := by
            simp only [sysStep, hck]
            rw [if_neg hth]
          have e2 : sysStep (restarts s'.restarts_attempted) k' s' =
              ⟨⟨s'.failed_frames + 1, s'.frame_count, s'.restarts_attempted, s'.debounce,
                s'.reports⟩, false, true⟩ := by
            simp only [sysStep, hck']
            rw [if_neg hthb]
          rw [e1, e2]
          simp only [Bool.false_eq_true, if_false]
          exact ih rest' _ _ hrest (by simp [hf]) (by simp [hr]) (by simp [hc])

/-- C6 (amended): in `qr_scanner_system.py` and `qr_scanner_minimal.py` a tick on
which the decoder raises yields the empty symbol list (the decode wrappers catch the
exception), and in the system loop neither stopping nor the number of delivered
frames depends on the decode results at all — so a decode error never terminates
that loop.  (`qr_scanner.py` behaves differently, see the counterexample.) -/
theorem C6_decode_errors_yield_empty_and_continue :
    (∀ e : String, decode_qr_codes (.error e) = []) ∧
    (∀ e : String, decode_qr_codes_from_file (some (.error e)) = []) ∧
    (∀ (restarts : Nat → Bool) (ticks ticks' : List SysTick) (s : SysState),
      ticks.map SysTick.cap = ticks'.map SysTick.cap →
      (sysRun restarts ticks s).2 = (sysRun restarts ticks' s).2 ∧
      (sysRun restarts ticks s).1.frame_count = (sysRun restarts ticks' s).1.frame_count) := by
  refine ⟨fun e => rfl, fun e => rfl, ?_⟩
  intro restarts ticks ticks' s hmap
  have h := sysRun_cap_determines restarts ticks ticks' s s hmap rfl rfl rfl
  exact ⟨h.1, h.2.1⟩

/-- Witness for C6: one frame tick whose decoder raises versus one whose decoder
returns nothing — same termination behaviour and same frame count. -/
theorem C6_decode_errors_yield_empty_and_continue_witness :
    (sysRun (fun _ => true) [⟨.frame, .error "boom", 0⟩] initSysState).2 =
      (sysRun (fun _ => true) [⟨.frame, .ok [], 0⟩] initSysState).2 ∧
    (sysRun (fun _ => true) [⟨.frame, .error "boom", 0⟩] initSysState).1.frame_count =
      (sysRun (fun _ => true) [⟨.frame, .ok [], 0⟩] initSysState).1.frame_count :=
  C6_decode_errors_yield_empty_and_continue.2.2 (fun _ => true)
    [⟨.frame, .error "boom", 0⟩] [⟨.frame, .ok [], 0⟩] initSysState rfl

/-- C6 fails on `qr_scanner.py` as the claim is stated: `decode_qr_codes` there has
no exception handler, so a decoder exception on the first tick escapes the loop and
terminates the run (only `KeyboardInterrupt` is caught), leaving the remaining tick
unprocessed — the decode step does not yield an empty list and the loop does not
continue. -/
theorem C6_counterexample_simple_loop_crashes :
    simpleRun initState [] [⟨true, .error "boom", 0⟩, ⟨true, .ok [], 1⟩]
      = .uncaught "boom" [] := rfl

lemma captureFirst_eq_find (env : ToolEnv) :
    ∀ l : List ToolName,
      captureFirst env l = l.find? (fun t => env.installed t && toolInvokeOK env t) := by
  intro l
  induction l with
  | nil => rfl
  | cons t rest ih =>
    rw [captureFirst, List.find?]
    rcases hi : env.installed t with _ | _
    · simp [hi, ih]
    · rcases hv : toolInvokeOK env t with _ | _
      · simp [hi, hv, ih]
      · simp [hi, hv]

/-- C7: a capture-utility invocation succeeds iff the process exits with status 0
and the output file exists; the candidate order is fixed as libcamera-still,
raspistill, fswebcam, ffmpeg; `capture_image` returns the first candidate in that
order that is installed and succeeds; and successive loop iterations re-probe
independently — the result of each call depends only on that call's environment,
nothing being memoized on the scanner. -/
theorem C7_capture_fallback_order :
    (∀ (env : ToolEnv) (t : ToolName),
      toolInvokeOK env t = true ↔ env.invoke t = some (0, true)) ∧
    capture_methods = [.libcameraStill, .raspistill, .fswebcam, .ffmpeg] ∧
    (∀ env : ToolEnv,
      capture_image env
        = capture_methods.find? (fun t => env.installed t && toolInvokeOK env t)) ∧
    (∀ envs : List ToolEnv, minimalCaptureSequence envs = envs.map capture_image) := by
  refine ⟨?_, rfl, fun env => captureFirst_eq_find env capture_methods, ?_⟩
  · intro env t
    unfold toolInvokeOK
    rcases hv : env.invoke t with _ | ⟨code, fe⟩
    · simp
    · constructor
      · intro h
        simp only [Bool.and_eq_true, beq_iff_eq] at h
        rw [h.1, h.2]
      · intro h
        injection h with h2
        rw [h2]
        rfl
  · intro envs
    induction envs with
    | nil => rfl
    | cons env rest ih => rw [minimalCaptureSequence, List.map_cons, ih]

lemma opensOf_append (l1 l2 : List CamEvent) :
    opensOf (l1 ++ l2) = opensOf l1 ++ opensOf l2 := by
  induction l1 with
  | nil => rfl
  | cons e rest ih => cases e <;> simp [opensOf, ih]

lemma releasesOf_append (l1 l2 : List CamEvent) :
    releasesOf (l1 ++ l2) = releasesOf l1 ++ releasesOf l2 := by
  induction l1 with
  | nil => rfl
  | cons e rest ih => cases e <;> simp [releasesOf, ih]

lemma readsOf_append (l1 l2 : List CamEvent) :
    readsOf (l1 ++ l2) = readsOf l1 ++ readsOf l2 := by
  induction l1 with
  | nil => rfl
  | cons e rest ih => cases e <;> simp [readsOf, ih]

lemma releasePrev_events (c : Option (Nat × Nat)) :
    opensOf (releasePrev c) = [] ∧ releasesOf (releasePrev c) = capToList c ∧
      readsOf (releasePrev c) = [] := by
  rcases c with _ | ⟨d, a⟩ <;> simp [releasePrev, capToList, opensOf, releasesOf, readsOf]

lemma v4l2Probe_events (env : CamEnv) (d : Nat) :
    ∀ (fuel i : Nat),
      opensOf (v4l2Probe env d i fuel).2 = [] ∧
      releasesOf (v4l2Probe env d i fuel).2 = [] ∧
      (readsOf (v4l2Probe env d i fuel).2).length ≤ fuel := by
  intro fuel
  induction fuel with
  | zero => intro i; simp [v4l2Probe, opensOf, releasesOf, readsOf]
  | succ n ih =>
    intro i
    rcases h : env.readRes d 0 i with _ | sz
    · simp only [v4l2Probe, h]
      have := ih (i + 1)
      simp [opensOf, releasesOf, readsOf, this.1, this.2.1]
      omega
    · by_cases hpos : 0 < sz
      · simp only [v4l2Probe, h, if_pos hpos]
        simp [opensOf, releasesOf, readsOf]
      · simp only [v4l2Probe, h, if_neg hpos]
        have := ih (i + 1)
        simp [opensOf, releasesOf, readsOf, this.1, this.2.1]
        omega

lemma v4l2Probe_ok_iff (env : CamEnv) (d : Nat) :
    ∀ (fuel i : Nat),
      (v4l2Probe env d i fuel).1 = true ↔
        ∃ j, j < fuel ∧ ∃ sz, env.readRes d 0 (i + j) = some sz ∧ 0 < sz := by
  intro fuel
  induction fuel with
  | zero => intro i; simp [v4l2Probe]
  | succ n ih =>
    intro i
    rcases h : env.readRes d 0 i with _ | sz
    · simp only [v4l2Probe, h]
      rw [ih (i + 1)]
      constructor
      · rintro ⟨j, hj, sz, hsz, hpos⟩
        refine ⟨j + 1, by omega, sz, ?_, hpos⟩
        rw [show i + (j + 1) = i + 1 + j from by omega]
        exact hsz
      · rintro ⟨j, hj, sz, hsz, hpos⟩
        cases j with
        | zero =>
          rw [Nat.add_zero, h] at hsz
          exact absurd hsz (by simp)
        | succ j' =>
          refine ⟨j', by omega, sz, ?_, hpos⟩
          rw [show i + 1 + j' = i + (j' + 1) from by omega]
          exact hsz
    · by_cases hpos : 0 < sz
      · simp only [v4l2Probe, h, if_pos hpos]
        constructor
        · intro _
          exact ⟨0, by omega, sz, by simpa using h, hpos⟩
        · intro _
          trivial
      · simp only [v4l2Probe, h, if_neg hpos]
        rw [ih (i + 1)]
        constructor
        · rintro ⟨j, hj, sz', hsz, hpos'⟩
          refine ⟨j + 1, by omega, sz', ?_, hpos'⟩
          rw [show i + (j + 1) = i + 1 + j from by omega]
          exact hsz
        · rintro ⟨j, hj, sz', hsz, hpos'⟩
          cases j with
          | zero =>
            rw [Nat.add_zero, h] at hsz
            injection hsz with hsz
            rw [← hsz] at hpos'
            exact absurd hpos' hpos
          | succ j' =>
            refine ⟨j', by omega, sz', ?_, hpos'⟩
            rw [show i + 1 + j' = i + (j' + 1) from by omega]
            exact hsz

lemma tryV4l2_events (env : CamEnv) (d : Nat) (cap : Option (Nat × Nat)) :
    opensOf (tryV4l2 env d cap).evs = [(d, 0)] ∧
    releasesOf (tryV4l2 env d cap).evs = capToList cap ∧
    (tryV4l2 env d cap).cap = some (d, 0) := by
  have hp := releasePrev_events cap
  have hv := v4l2Probe_events env d 3 0
  unfold tryV4l2
  split_ifs <;>
    simp [opensOf_append, releasesOf_append, hp.1, hp.2.1, hv.1, hv.2.1,
      opensOf, releasesOf]

lemma tryBasic_events (env : CamEnv) (d : Nat) (cap : Option (Nat × Nat)) :
    opensOf (tryBasic env d cap).evs = [(d, 1)] ∧
    releasesOf (tryBasic env d cap).evs = capToList cap ∧
    (tryBasic env d cap).cap = some (d, 1) := by
  have hp := releasePrev_events cap
  unfold tryBasic
  split_ifs <;>
    simp [opensOf_append, releasesOf_append, hp.1, hp.2.1, opensOf, releasesOf]

lemma tryLegacy_events (env : CamEnv) (d : Nat) (cap : Option (Nat × Nat)) :
    opensOf (tryLegacy env d cap).evs = [(d, 2)] ∧
    releasesOf (tryLegacy env d cap).evs = capToList cap ∧
    (tryLegacy env d cap).cap = some (d, 2) := by
  have hp := releasePrev_events cap
  unfold tryLegacy
  split_ifs <;>
    simp [opensOf_append, releasesOf_append, hp.1, hp.2.1, opensOf, releasesOf]

lemma dropLast_glue (A t : List (Nat × Nat)) (c : Nat × Nat) (hne : A ≠ [])
    (hlast : A.getLast? = some c) :
    A.dropLast ++ ([c] ++ t).dropLast = (A ++ t).dropLast := by
  have hA : A.dropLast ++ [c] = A := by
    rw [List.getLast?_eq_getLast_of_ne_nil hne] at hlast
    injection hlast with hl
    rw [← hl]
    exact List.dropLast_append_getLast hne
  rcases t with _ | ⟨x, xs⟩
  · simp
  · rw [List.dropLast_append_of_ne_nil A (List.cons_ne_nil x xs)]
    simp only [List.singleton_append, List.dropLast_cons₂]
    calc A.dropLast ++ c :: (x :: xs).dropLast
        = (A.dropLast ++ [c]) ++ (x :: xs).dropLast := by simp
      _ = A ++ (x :: xs).dropLast := by rw [hA]

lemma getLast?_glue (A t : List (Nat × Nat)) (c : Nat × Nat)
    (hlast : A.getLast? = some c) :
    ([c] ++ t).getLast? = (A ++ t).getLast? := by
  rcases t with _ | ⟨x, xs⟩
  · simp [hlast]
  · rw [List.getLast?_append_of_ne_nil _ (List.cons_ne_nil x xs),
      List.getLast?_append_of_ne_nil _ (List.cons_ne_nil x xs)]

lemma tryApproachSeq_trace (env : CamEnv) (d : Nat) (cap : Option (Nat × Nat)) :
    releasesOf (tryApproachSeq env d cap).evs
      = (capToList cap ++ opensOf (tryApproachSeq env d cap).evs).dropLast ∧
    (tryApproachSeq env d cap).cap
      = (capToList cap ++ opensOf (tryApproachSeq env d cap).evs).getLast? ∧
    opensOf (tryApproachSeq env d cap).evs ≠ [] := by
  have h1 := tryV4l2_events env d cap
  simp only [tryApproachSeq]
  rw [h1.2.2]
  have h2 := tryBasic_events env d (some (d, 0))
  have h3 := tryLegacy_events env d (tryBasic env d (some (d, 0))).cap
  rw [h2.2.2] at h3
  rw [h2.2.2]
  by_cases hb1 : (tryV4l2 env d cap).ok
  · rw [if_pos hb1]
    refine ⟨?_, ?_, ?_⟩
    · rw [h1.1, h1.2.1]
      simp
    · rw [h1.1, h1.2.2]
      simp
    · rw [h1.1]
      simp
  · rw [if_neg hb1]
    by_cases hb2 : (tryBasic env d (some (d, 0))).ok
    · rw [if_pos hb2]
      refine ⟨?_, ?_, ?_⟩
      · simp only [releasesOf_append, opensOf_append, h1.1, h1.2.1, h2.1, h2.2.1]
        simp [capToList]
      · simp only [opensOf_append, h1.1, h2.1]
        simp
      · simp only [opensOf_append, h1.1, h2.1]
        simp
    · rw [if_neg hb2]
      refine ⟨?_, ?_, ?_⟩
      · simp only [releasesOf_append, opensOf_append, h1.1, h1.2.1, h2.1, h2.2.1,
          h3.1, h3.2.1]
        simp [capToList]
      · simp only [opensOf_append, h1.1, h2.1, h3.1, h3.2.2]
        simp
      · simp only [opensOf_append, h1.1, h2.1, h3.1]
        simp

lemma tryDevices_trace (env : CamEnv) :
    ∀ (devices : List Nat) (cap : Option (Nat × Nat)),
      releasesOf (tryDevices env devices cap).evs
        = (capToList cap ++ opensOf (tryDevices env devices cap).evs).dropLast ∧
      (tryDevices env devices cap).cap
        = (capToList cap ++ opensOf (tryDevices env devices cap).evs).getLast? := by
  intro devices
  induction devices with
  | nil =>
    intro cap
    rcases cap with _ | c <;> simp [tryDevices, opensOf, releasesOf, capToList]
  | cons d rest ih =>
    intro cap
    have hseq := tryApproachSeq_trace env d cap
    unfold tryDevices
    by_cases hb : (tryApproachSeq env d cap).ok
    · rw [if_pos hb]
      exact ⟨hseq.1, hseq.2.1⟩
    · rw [if_neg hb]
      have hne : capToList cap ++ opensOf (tryApproachSeq env d cap).evs ≠ [] := by
        intro hnil
        rcases List.append_eq_nil.mp hnil with ⟨_, hnil2⟩
        exact hseq.2.2 hnil2
      obtain ⟨lastc, hlast⟩ :
          ∃ c, (capToList cap ++ opensOf (tryApproachSeq env d cap).evs).getLast? = some c :=
        ⟨_, List.getLast?_eq_getLast_of_ne_nil hne⟩
      have hcap2 : (tryApproachSeq env d cap).cap = some lastc := by
        rw [hseq.2.1, hlast]
      rw [hcap2]
      have hih := ih (some lastc)
      have hg1 := dropLast_glue (capToList cap ++ opensOf (tryApproachSeq env d cap).evs)
        (opensOf (tryDevices env rest (some lastc)).evs) lastc hne hlast
      have hg2 := getLast?_glue (capToList cap ++ opensOf (tryApproachSeq env d cap).evs)
        (opensOf (tryDevices env rest (some lastc)).evs) lastc hlast
      constructor
      · simp only [releasesOf_append, opensOf_append, hseq.1, hih.1]
        rw [show capToList (some lastc) = [lastc] from rfl, hg1, List.append_assoc]
      · simp only [opensOf_append, hih.2]
        rw [show capToList (some lastc) = [lastc] from rfl, hg2, List.append_assoc]

/-- C8 (amended): during selection only the V4L2-direct approach probes an opened
candidate with up to 3 reads (accepted iff one of the 3 probes returns a frame of
positive size); the basic-OpenCV and legacy approaches perform exactly one probe
read and accept any returned frame.  The handles released by `start_camera` are
exactly all constructed handles except the last one, in order — so every rejected
candidate is released exactly once, at the start of the next attempt, while the last
candidate attempted (in particular the final one when selection fails) is left held,
and the handle returned is the last one constructed.  In the spec's A/B/C scenario,
selection returns C's handle and releases A and B exactly once each. -/
theorem C8_selection_probing_and_release :
    (∀ (env : CamEnv) (d : Nat) (cap : Option (Nat × Nat)),
      ((tryV4l2 env d cap).ok = true ↔
        env.openOK d 0 = true ∧ ∃ i, i < 3 ∧ ∃ sz, env.readRes d 0 i = some sz ∧ 0 < sz) ∧
      (readsOf (tryV4l2 env d cap).evs).length ≤ 3) ∧
    (∀ (env : CamEnv) (d : Nat) (cap : Option (Nat × Nat)),
      ((tryBasic env d cap).ok = true ↔
        env.openOK d 1 = true ∧ (env.readRes d 1 0).isSome = true) ∧
      (readsOf (tryBasic env d cap).evs).length ≤ 1) ∧
    (∀ (env : CamEnv) (d : Nat) (cap : Option (Nat × Nat)),
      ((tryLegacy env d cap).ok = true ↔
        env.openOK d 2 = true ∧ (env.readRes d 2 0).isSome = true) ∧
      (readsOf (tryLegacy env d cap).evs).length ≤ 1) ∧
    (∀ (env : CamEnv) (devices : List Nat),
      releasesOf (start_camera env devices).evs
        = (opensOf (start_camera env devices).evs).dropLast ∧
      (start_camera env devices).cap = (opensOf (start_camera env devices).evs).getLast?) ∧
    ((start_camera envABC [0]).ok = true ∧
      (start_camera envABC [0]).cap = some (0, 2) ∧
      opensOf (start_camera envABC [0]).evs = [(0, 0), (0, 1), (0, 2)] ∧
      releasesOf (start_camera envABC [0]).evs = [(0, 0), (0, 1)]) := by
  refine ⟨?_, ?_, ?_, ?_, by decide⟩
  · intro env d cap
    have hp := (releasePrev_events cap).2.2
    have hv := v4l2Probe_events env d 3 0
    constructor
    · unfold tryV4l2
      by_cases ho : env.openOK d 0 = true
      · rw [if_pos ho]
        show (v4l2Probe env d 0 3).1 = true ↔ _
        rw [v4l2Probe_ok_iff env d 3 0]
        simp [ho]
      · rw [if_neg ho]
        simp [ho]
    · unfold tryV4l2
      by_cases ho : env.openOK d 0 = true
      · rw [if_pos ho]
        show (readsOf (releasePrev cap ++ [CamEvent.openCam d 0] ++
          (v4l2Probe env d 0 3).2)).length ≤ 3
        simp [readsOf_append, hp, readsOf, hv.2.2]
      · rw [if_neg ho]
        show (readsOf (releasePrev cap ++ [CamEvent.openCam d 0])).length ≤ 3
        simp [readsOf_append, hp, readsOf]
  · intro env d cap
    have hp := (releasePrev_events cap).2.2
    constructor
    · unfold tryBasic
      by_cases ho : env.openOK d 1 = true
      · rw [if_pos ho]
        simp [ho]
      · rw [if_neg ho]
        simp [ho]
    · unfold tryBasic
      by_cases ho : env.openOK d 1 = true
      · rw [if_pos ho]
        show (readsOf (releasePrev cap ++ [CamEvent.openCam d 1] ++
          [CamEvent.readCam d 1 0])).length ≤ 1
        simp [readsOf_append, hp, readsOf]
      · rw [if_neg ho]
        show (readsOf (releasePrev cap ++ [CamEvent.openCam d 1])).length ≤ 1
        simp [readsOf_append, hp, readsOf]
  · intro env d cap
    have hp := (releasePrev_events cap).2.2
    constructor
    · unfold tryLegacy
      by_cases ho : env.openOK d 2 = true
      · rw [if_pos ho]
        simp [ho]
      · rw [if_neg ho]
        simp [ho]
    · unfold tryLegacy
      by_cases ho : env.openOK d 2 = true
      · rw [if_pos ho]
        show (readsOf (releasePrev cap ++ [CamEvent.openCam d 2] ++
          [CamEvent.readCam d 2 0])).length ≤ 1
        simp [readsOf_append, hp, readsOf]
      · rw [if_neg ho]
        show (readsOf (releasePrev cap ++ [CamEvent.openCam d 2])).length ≤ 1
        simp [readsOf_append, hp, readsOf]
  · intro env devices
    have h := tryDevices_trace env devices none
    unfold start_camera
    simpa [capToList] using h

/-- C8 fails as stated on two counts: (a) the basic-OpenCV approach probes an opened
candidate exactly once — in an environment whose first read fails but whose second
read would return a frame (so the claimed up-to-3 probing would accept), the
candidate is rejected after a single read; (b) when selection fails overall, the
final candidate's handle is opened but never released by selection — only the two
earlier candidates are released. -/
theorem C8_counterexample_single_probe_and_unreleased_final :
    ((tryBasic envRetryWouldWork 0 none).ok = false ∧
      readsOf (tryBasic envRetryWouldWork 0 none).evs = [(0, 1, 0)] ∧
      envRetryWouldWork.openOK 0 1 = true ∧
      envRetryWouldWork.readRes 0 1 1 = some 1) ∧
    ((start_camera envAllFail [0]).ok = false ∧
      opensOf (start_camera envAllFail [0]).evs = [(0, 0), (0, 1), (0, 2)] ∧
      releasesOf (start_camera envAllFail [0]).evs = [(0, 0), (0, 1)]) := by decide
